import Mathlib

/-!
Shallow embedding of the pincode-validator application core:
the public lookup loader (`src/app/routes/proxy.check.ts`), and the admin
action handlers — single-rule create/upsert and CSV bulk upload — from the
admin route module (`src/unnamed/part_000`).

JavaScript strings are modelled as Lean `String`; `null`/`undefined` values
are `Option`; the Prisma `PincodeRule` table is a `List Rule` (the `id`,
`createdAt`, `updatedAt` columns are system-generated and not referenced by
any of the verified logic, so they are omitted from the row model).
-/

namespace Pincode

/-! ## JavaScript string primitives -/

/-- The whitespace characters relevant to JS `String.prototype.trim` on the
ASCII range: space, tab, LF, CR, vertical tab, form feed. -/
def isJsWs (c : Char) : Bool :=
  c = ' ' || c = '\t' || c = '\n' || c = '\r' || c = '\x0b' || c = '\x0c'

/-- Drop leading and trailing whitespace from a character list. -/
def trimChars (l : List Char) : List Char :=
  ((l.dropWhile isJsWs).reverse.dropWhile isJsWs).reverse

/-- JS `s.trim()`. -/
def jsTrim (s : String) : String := ⟨trimChars s.data⟩

/-- JS `s.toLowerCase()` (ASCII range, which is all the code compares). -/
def jsToLower (s : String) : String := ⟨s.data.map Char.toLower⟩

/-- JS truthiness of a `string | null` value: `null` and `""` are falsy. -/
def jsTruthy : Option String → Bool
  | none => false
  | some s => !(s = "")

/-- The regex test `/^\d{6}$/.test s`: exactly six ASCII digits. -/
def isSixDigits (s : String) : Bool :=
  s.data.length = 6 && s.data.all Char.isDigit

/-! ## Helpers `toBool` and `toIntOrNull` (part_000 lines 40-53) -/

/-- `toBool(val, fallback)`: a falsy value (`null` or `""`) yields the
fallback; otherwise the trimmed, lowercased value must be `"true"`, `"1"`
or `"yes"`. -/
def toBool (val : Option String) (fallback : Bool) : Bool :=
  match val with
  | none => fallback
  | some s =>
    if s = "" then fallback
    else
      let v := jsToLower (jsTrim s)
      v = "true" || v = "1" || v = "yes"

/-- Value of a list of decimal digit characters. -/
def digitsVal (ds : List Char) : Nat :=
  ds.foldl (fun n c => 10 * n + (c.toNat - '0'.toNat)) 0

/-- JS `Number(s)` on a trimmed, non-empty string, restricted to the decimal
integer literals the CSV contract documents: an optional sign followed by
digits evaluates to that integer; anything else (for the purposes of this
model) is `NaN`/non-integer, i.e. `none`. -/
def jsNumberInt (s : String) : Option Int :=
  match s.data with
  | '-' :: ds => if ds ≠ [] && ds.all Char.isDigit
      then some (-(Int.ofNat (digitsVal ds))) else none
  | '+' :: ds => if ds ≠ [] && ds.all Char.isDigit
      then some (Int.ofNat (digitsVal ds)) else none
  | ds => if ds ≠ [] && ds.all Char.isDigit
      then some (Int.ofNat (digitsVal ds)) else none

/-- `toIntOrNull(val)`: falsy input or falsy trimmed input gives `null`;
otherwise the value must parse to a finite integer `n ≥ 0`, else `null`. -/
def toIntOrNull (val : Option String) : Option Int :=
  match val with
  | none => none
  | some s0 =>
    if s0 = "" then none
    else
      let s := jsTrim s0
      if s = "" then none
      else
        match jsNumberInt s with
        | none => none
        | some n => if n < 0 then none else some n

/-! ## Data model: the `PincodeRule` table -/

/-- One row of the `PincodeRule` table (mutable and key fields only). -/
structure Rule where
  shop : String
  pincode : String
  deliverable : Bool
  etaMinDays : Option Int
  etaMaxDays : Option Int
  codAvailable : Bool
  shippingFee : Option Int
deriving DecidableEq, Repr

/-- The mutable field values supplied to an upsert. -/
structure UpsertArgs where
  pincode : String
  deliverable : Bool
  etaMinDays : Option Int
  etaMaxDays : Option Int
  codAvailable : Bool
  shippingFee : Option Int
deriving DecidableEq, Repr

/-- Whether a row matches the unique key `(shop, pincode)`. -/
def keyMatch (shop pincode : String) (r : Rule) : Bool :=
  r.shop = shop && r.pincode = pincode

/-- `db.pincodeRule.findUnique({where: {shop_pincode: {shop, pincode}}})`. -/
def findUnique (db : List Rule) (shop pincode : String) : Option Rule :=
  db.find? (keyMatch shop pincode)

/-- The row an upsert writes for `(shop, args)`. -/
def mkRule (shop : String) (a : UpsertArgs) : Rule :=
  ⟨shop, a.pincode, a.deliverable, a.etaMinDays, a.etaMaxDays,
    a.codAvailable, a.shippingFee⟩

/-- `db.pincodeRule.upsert({where: {shop_pincode}, update, create})`: if a row
with the unique key exists its mutable fields are replaced, otherwise a new
row is created. -/
def upsert (db : List Rule) (shop : String) (a : UpsertArgs) : List Rule :=
  if db.any (keyMatch shop a.pincode) then
    db.map (fun r =>
      if keyMatch shop a.pincode r then
        { r with deliverable := a.deliverable, etaMinDays := a.etaMinDays,
                 etaMaxDays := a.etaMaxDays, codAvailable := a.codAvailable,
                 shippingFee := a.shippingFee }
      else r)
  else db ++ [mkRule shop a]

/-! ## Public lookup loader (`proxy.check.ts`, non-OPTIONS path)

An OPTIONS preflight request short-circuits with 204 before the code below
runs; `lookupLoader` models the loader from the point where the query
parameters are read (lines 35-77). -/

/-- The JSON body of a lookup response. -/
inductive LookupBody where
  /-- `{ok:false, error}` -/
  | errorBody (error : String)
  /-- `{ok:true, deliverable:false, message}` -/
  | negative (message : String)
  /-- `{ok:true, deliverable:true, etaMinDays, etaMaxDays, codAvailable,
  shippingFee, message}` -/
  | positive (etaMinDays etaMaxDays : Option Int) (codAvailable : Bool)
      (shippingFee : Option Int) (message : String)
deriving DecidableEq, Repr

/-- An HTTP response of the lookup endpoint: status code plus JSON body. -/
structure LookupResult where
  status : Nat
  body : LookupBody
deriving DecidableEq, Repr

/-- The lookup loader: `shop` and `pincode` are the query parameters
(`none` when absent), `db` the rule table. -/
def lookupLoader (shop pincode : Option String) (db : List Rule) :
    LookupResult :=
  let pc := jsTrim (pincode.getD "")
  if !(jsTruthy shop) then ⟨400, .errorBody "Missing shop"⟩
  else if !(isSixDigits pc) then ⟨200, .negative "Enter 6-digit pincode."⟩
  else
    match findUnique db (shop.getD "") pc with
    | none => ⟨200, .negative "Not deliverable for this pincode."⟩
    | some r =>
      if r.deliverable then
        ⟨200, .positive r.etaMinDays r.etaMaxDays r.codAvailable
          r.shippingFee "Delivery available."⟩
      else ⟨200, .negative "Not deliverable for this pincode."⟩

/-! ## CSV parsing (`parseCsv`, part_000 lines 55-75) -/

/-- Normalization `text.replace(/\r\n/g,"\n").replace(/\r/g,"\n")`. -/
def normalizeNewlines : List Char → List Char
  | [] => []
  | '\r' :: '\n' :: t => '\n' :: normalizeNewlines t
  | '\r' :: t => '\n' :: normalizeNewlines t
  | c :: t => c :: normalizeNewlines t

/-- JS `String.prototype.split` on a single separator character: `""` splits
to `[""]`, and separators at the ends produce empty fields. -/
def splitOnChar (sep : Char) : List Char → List (List Char)
  | [] => [[]]
  | c :: t =>
    let r := splitOnChar sep t
    if c = sep then [] :: r
    else
      match r with
      | [] => [[c]]
      | h :: t' => (c :: h) :: t'

/-- Result of `parseCsv`: the trimmed header names and, for each data line,
its trimmed column values. The source materializes each row as the object
`{headers[i]: cols[i] ?? ""}`; `objGet` below reproduces that object's
lookup from `(headers, cols)`. -/
structure Csv where
  headers : List String
  rows : List (List String)
deriving DecidableEq, Repr

/-- `parseCsv(text)`: normalize newlines, split into trimmed non-blank
lines; the first line gives the headers, the rest the data rows, each split
on commas with every field trimmed. -/
def parseCsv (text : String) : Csv :=
  let lines := (((splitOnChar '\n' (normalizeNewlines text.data)).map
    (fun l => jsTrim ⟨l⟩)).filter (fun s => !(s = "")))
  match lines with
  | [] => ⟨[], []⟩
  | h :: t =>
    ⟨(splitOnChar ',' h.data).map (fun c => jsTrim ⟨c⟩),
     t.map (fun line => (splitOnChar ',' line.data).map (fun c => jsTrim ⟨c⟩))⟩

/-- Last index at which `k` occurs in `l`, if any. -/
def lastIndexOf (l : List String) (k : String) : Option Nat :=
  l.enum.foldl (fun acc p => if p.2 = k then some p.1 else acc) none

/-- Lookup `obj[k]` on the row object built by
`headers.forEach((h,i) => obj[h] = cols[i] ?? "")`: assignments run in
order, so a duplicated header keeps its last column; keys outside the
header list are `undefined` (`none`). -/
def objGet (headers cols : List String) (k : String) : Option String :=
  match lastIndexOf headers k with
  | none => none
  | some i => some (cols.getD i "")

/-- `headerMap.get(k)` where
`headerMap = new Map(headers.map(h => [h.toLowerCase(), h]))`: the last
header whose lowercasing equals `k` (later map entries overwrite earlier
ones). -/
def hmGet (headers : List String) (k : String) : Option String :=
  headers.reverse.find? (fun h => jsToLower h = k)

/-! ## CSV bulk-upload row processing (part_000 lines 169-209) -/

/-- `String(r[headerMap.get("pincode")!] || "").trim()` (line 172). -/
def rowPincode (headers cols : List String) : String :=
  jsTrim ((objGet headers cols ((hmGet headers "pincode").getD "")).getD "")

/-- `r[headerMap.get("deliverable") ?? ""] ?? null` (line 178). -/
def deliverableVal (headers cols : List String) : Option String :=
  objGet headers cols ((hmGet headers "deliverable").getD "")

/-- `r[headerMap.get("codavailable") ?? ""] ?? r[headerMap.get("codAvailable")
?? ""] ?? null` (line 179); the second lookup key is always `""` because
`headerMap` keys are lowercased and `"codAvailable"` is not. -/
def codAvailableVal (headers cols : List String) : Option String :=
  (objGet headers cols ((hmGet headers "codavailable").getD "")) <|>
    (objGet headers cols ((hmGet headers "codAvailable").getD ""))

/-- The raw `etaMinDays` cell (line 181): the lookup key is
`headerMap.get("etamindays") ?? r["etaMinDays"] ?? ""`, and the whole
expression falls back through `r[headerMap.get("etaMinDays") ?? ""] ?? ""`. -/
def etaMinStr (headers cols : List String) : String :=
  let key := (hmGet headers "etamindays").getD
    ((objGet headers cols "etaMinDays").getD "")
  ((objGet headers cols key) <|>
    (objGet headers cols ((hmGet headers "etaMinDays").getD ""))).getD ""

/-- The raw `etaMaxDays` cell (line 182), same shape as `etaMinStr`. -/
def etaMaxStr (headers cols : List String) : String :=
  let key := (hmGet headers "etamaxdays").getD
    ((objGet headers cols "etaMaxDays").getD "")
  ((objGet headers cols key) <|>
    (objGet headers cols ((hmGet headers "etaMaxDays").getD ""))).getD ""

/-- The raw `shippingFee` cell (line 183), same shape as `etaMinStr`. -/
def shipStr (headers cols : List String) : String :=
  let key := (hmGet headers "shippingfee").getD
    ((objGet headers cols "shippingFee").getD "")
  ((objGet headers cols key) <|>
    (objGet headers cols ((hmGet headers "shippingFee").getD ""))).getD ""

/-- `s || null` on a string: `""` is falsy. -/
def strOrNull (s : String) : Option String :=
  if s = "" then none else some s

/-- One entry of the bulk response's `invalid` list. Its `pincode` field is
optional in the source type but populated by every push, so it is a plain
`String` here. -/
structure InvalidEntry where
  row : Nat
  reason : String
  pincode : String
deriving DecidableEq, Repr

/-- The body of the `rows.forEach` loop for the row at 0-based index `idx`:
either the invalid entry it pushes, or the upsert arguments it enqueues. -/
def classifyRow (headers : List String) (idx : Nat) (cols : List String) :
    InvalidEntry ⊕ UpsertArgs :=
  let rowNo := idx + 2
  let pincode := rowPincode headers cols
  if !(isSixDigits pincode) then
    .inl ⟨rowNo, "Invalid pincode (must be 6 digits).", pincode⟩
  else
    let etaMinT := jsTrim (etaMinStr headers cols)
    let etaMaxT := jsTrim (etaMaxStr headers cols)
    let shipT := jsTrim (shipStr headers cols)
    let etaMinDays := toIntOrNull (strOrNull etaMinT)
    let etaMaxDays := toIntOrNull (strOrNull etaMaxT)
    let shippingFee := toIntOrNull (strOrNull shipT)
    if etaMinT ≠ "" ∧ etaMinDays = none then
      .inl ⟨rowNo, "etaMinDays must be a non-negative integer.", pincode⟩
    else if etaMaxT ≠ "" ∧ etaMaxDays = none then
      .inl ⟨rowNo, "etaMaxDays must be a non-negative integer.", pincode⟩
    else if shipT ≠ "" ∧ shippingFee = none then
      .inl ⟨rowNo, "shippingFee must be a non-negative integer.", pincode⟩
    else
      .inr ⟨pincode, toBool (deliverableVal headers cols) true,
        etaMinDays, etaMaxDays,
        toBool (codAvailableVal headers cols) false, shippingFee⟩

/-- Project the `.inl` (invalid-entry) component of a classified row. -/
def leftOf {α β : Type} : α ⊕ β → Option α
  | .inl a => some a
  | .inr _ => none

/-- Project the `.inr` (upsert-arguments) component of a classified row. -/
def rightOf {α β : Type} : α ⊕ β → Option β
  | .inl _ => none
  | .inr b => some b

/-- The header guard `headers.map(h => h.toLowerCase()).includes("pincode")`
(line 148). -/
def headerHasPincode (headers : List String) : Bool :=
  (headers.map jsToLower).contains "pincode"

/-- Response of the `bulk_upload` intent. -/
inductive BulkResp where
  /-- `{ok:false, error}`, HTTP 400 -/
  | err (error : String)
  /-- `{ok:true, inserted, updated, invalidCount, invalid}` -/
  | ok (inserted updated invalidCount : Nat) (invalid : List InvalidEntry)
deriving DecidableEq, Repr

/-- A bulk upload's response together with the rule table it leaves behind. -/
structure BulkOutcome where
  resp : BulkResp
  db : List Rule
deriving DecidableEq, Repr

/-- Lines 159-161: the parsed pincodes of all rows, filtered to those that
pass the six-digit format check. -/
def parsedPincodes (csvText : String) : List String :=
  let p := parseCsv csvText
  (p.rows.map (rowPincode p.headers)).filter isSixDigits

/-- Lines 163-167: the pre-fetched `existingSet` — pincodes of the tenant's
rows whose pincode occurs among `parsedPincodes`. Membership in this list is
what `existingSet.has` answers. -/
def existingPincodes (csvText shop : String) (db : List Rule) : List String :=
  (db.filter (fun r =>
    r.shop = shop && (parsedPincodes csvText).contains r.pincode)).map
    Rule.pincode

/-- Lines 169-209: each data row classified by the loop body, in order. -/
def classifiedRows (csvText : String) : List (InvalidEntry ⊕ UpsertArgs) :=
  let p := parseCsv csvText
  p.rows.enum.map (fun ic => classifyRow p.headers ic.1 ic.2)

/-- The `bulk_upload` intent handler (part_000 lines 141-226): header guard,
pre-fetch of existing pincodes among the format-valid parsed pincodes, the
per-row classification loop, execution of the queued upserts in order, and
the insert/update counts taken over `parsedPincodes` against the pre-fetched
set (the source's two `forEach` counters are the two filter lengths). -/
def bulkUpload (csvText shop : String) (db : List Rule) : BulkOutcome :=
  if !(headerHasPincode (parseCsv csvText).headers) then
    ⟨.err "CSV must include a \"pincode\" column.", db⟩
  else
    let invalid := (classifiedRows csvText).filterMap leftOf
    let argsList := (classifiedRows csvText).filterMap rightOf
    let newDb := argsList.foldl (fun d a => upsert d shop a) db
    let pp := parsedPincodes csvText
    let ex := existingPincodes csvText shop db
    let inserted := (pp.filter (fun pc => !(ex.contains pc))).length
    let updated := (pp.filter (fun pc => ex.contains pc)).length
    ⟨.ok inserted updated invalid.length (invalid.take 50), newDb⟩

/-! ## Single-rule create/upsert handler (part_000 lines 112-139) -/

/-- Response of a non-bulk admin action. -/
inductive ActionResp where
  /-- `{ok:true}` -/
  | ok
  /-- `{ok:false, error}`, HTTP 400 -/
  | err (error : String)
deriving DecidableEq, Repr

/-- A create action's response together with the rule table it leaves. -/
structure ActionOutcome where
  resp : ActionResp
  db : List Rule
deriving DecidableEq, Repr

/-- The `create` intent handler: the six form fields are `Option String`
(`none` when the field is missing from the form data). -/
def createAction (db : List Rule) (shop : String)
    (pincodeF deliverableF codAvailableF etaMinF etaMaxF shipF :
      Option String) : ActionOutcome :=
  let pincode := jsTrim (pincodeF.getD "")
  if !(isSixDigits pincode) then
    ⟨.err "Pincode must be exactly 6 digits.", db⟩
  else
    let etaMinDays := toIntOrNull etaMinF
    let etaMaxDays := toIntOrNull etaMaxF
    let shippingFee := toIntOrNull shipF
    let etaMinRaw := jsTrim (etaMinF.getD "")
    let etaMaxRaw := jsTrim (etaMaxF.getD "")
    let shipRaw := jsTrim (shipF.getD "")
    if etaMinRaw ≠ "" ∧ etaMinDays = none then
      ⟨.err "ETA Min must be a non-negative integer.", db⟩
    else if etaMaxRaw ≠ "" ∧ etaMaxDays = none then
      ⟨.err "ETA Max must be a non-negative integer.", db⟩
    else if shipRaw ≠ "" ∧ shippingFee = none then
      ⟨.err "Shipping fee must be a non-negative integer.", db⟩
    else
      ⟨.ok, upsert db shop
        ⟨pincode, toBool deliverableF true, etaMinDays, etaMaxDays,
          toBool codAvailableF false, shippingFee⟩⟩

/-! ## Vocabulary for the verified properties -/

/-- An optional integer column value that is absent or non-negative. -/
def optNonneg : Option Int → Bool
  | none => true
  | some n => decide (0 ≤ n)

/-- The data-model invariant on a stored row: six-digit pincode and
absent-or-non-negative numeric fields. -/
def ruleWF (r : Rule) : Bool :=
  isSixDigits r.pincode && optNonneg r.etaMinDays && optNonneg r.etaMaxDays
    && optNonneg r.shippingFee

/-- The same invariant on the arguments handed to an upsert. -/
def argsWF (a : UpsertArgs) : Bool :=
  isSixDigits a.pincode && optNonneg a.etaMinDays && optNonneg a.etaMaxDays
    && optNonneg a.shippingFee

/-- Number of data rows of a CSV. -/
def dataRowCount (csvText : String) : Nat :=
  (parseCsv csvText).rows.length

/-- Number of data rows the loop records as invalid. -/
def invalidRowCount (csvText : String) : Nat :=
  ((classifiedRows csvText).filter Sum.isLeft).length

/-- Number of data rows that are recorded invalid although their pincode
passes the six-digit format check (these are the rows that fail a
numeric-field validation yet still occur in `parsedPincodes`). -/
def pincodeValidOverlap (csvText : String) : Nat :=
  let p := parseCsv csvText
  ((p.rows.enum.filter (fun ic =>
    (classifyRow p.headers ic.1 ic.2).isLeft
      && isSixDigits (rowPincode p.headers ic.2))).length)

/-- The `inserted` count of a bulk response (0 for an error response). -/
def BulkResp.insertedOf : BulkResp → Nat
  | .err _ => 0
  | .ok i _ _ _ => i

/-- The `updated` count of a bulk response (0 for an error response). -/
def BulkResp.updatedOf : BulkResp → Nat
  | .err _ => 0
  | .ok _ u _ _ => u

/-- The `invalidCount` field of a bulk response (0 for an error response). -/
def BulkResp.invalidCountOf : BulkResp → Nat
  | .err _ => 0
  | .ok _ _ c _ => c

/-- The `invalid` detail list of a bulk response (empty for an error). -/
def BulkResp.invalidListOf : BulkResp → List InvalidEntry
  | .err _ => []
  | .ok _ _ _ inv => inv

/-- Whether a bulk response is the whole-request failure `{ok:false}`. -/
def BulkResp.isErr : BulkResp → Bool
  | .err _ => true
  | .ok _ _ _ _ => false

/-! ## List counting helpers -/

theorem length_filter_partition {α : Type} (l : List α) (p : α → Bool) :
    (l.filter p).length + (l.filter (fun x => !(p x))).length = l.length := by
  induction l with
  | nil => rfl
  | cons a t ih =>
    by_cases h : p a = true <;>
      simp [List.filter_cons, h, Nat.succ_eq_add_one] <;> omega

theorem length_filter_map {α β : Type} (l : List α) (f : α → β) (p : β → Bool) :
    ((l.map f).filter p).length = (l.filter (fun x => p (f x))).length := by
  induction l with
  | nil => rfl
  | cons a t ih =>
    by_cases h : p (f a) = true <;> simp [List.filter_cons, h, ih]

theorem length_filterMap_leftOf {α β : Type} (l : List (α ⊕ β)) :
    (l.filterMap leftOf).length = (l.filter Sum.isLeft).length := by
  induction l with
  | nil => rfl
  | cons a t ih =>
    cases a <;> simp [List.filterMap_cons, List.filter_cons, leftOf, ih]

theorem length_filter_enumFrom {α : Type} (l : List α) (n : Nat)
    (g : α → Bool) :
    ((List.enumFrom n l).filter (fun ic => g ic.2)).length =
      (l.filter g).length := by
  induction l generalizing n with
  | nil => rfl
  | cons a t ih =>
    by_cases h : g a = true <;>
      simp [List.enumFrom, List.filter_cons, h, ih]

theorem length_filter_overlap {α : Type} (l : List α) (p q : α → Bool)
    (h : ∀ x ∈ l, p x = false → q x = true) :
    (l.filter p).length + (l.filter q).length =
      l.length + (l.filter (fun x => p x && q x)).length := by
  induction l with
  | nil => rfl
  | cons a t ih =>
    have ht : ∀ x ∈ t, p x = false → q x = true := fun x hx => h x (.tail a hx)
    have ha := h a (.head t)
    have ih' := ih ht
    by_cases hp : p a = true
    · by_cases hq : q a = true <;> simp [List.filter_cons, hp, hq] <;> omega
    · have hq : q a = true := ha (by simpa using hp)
      simp [List.filter_cons, hp, hq]
      omega

theorem filter_map_pres {α : Type} (l : List α) (f : α → α) (p : α → Bool)
    (hf : ∀ x, p (f x) = p x) :
    (l.map f).filter p = (l.filter p).map f := by
  induction l with
  | nil => rfl
  | cons a t ih =>
    by_cases h : p a = true <;>
      simp [List.filter_cons, hf, h, ih]

/-! ## Trimming lemmas -/

theorem dropWhile_append_of_all (w l : List Char) (pred : Char → Bool)
    (h : ∀ c ∈ w, pred c = true) :
    (w ++ l).dropWhile pred = l.dropWhile pred := by
  induction w with
  | nil => rfl
  | cons c t ih =>
    have hc := h c (.head t)
    simp only [List.cons_append, List.dropWhile_cons, hc, if_true]
    exact ih fun x hx => h x (.tail c hx)

theorem dropWhile_of_all_false (l : List Char) (pred : Char → Bool)
    (h : ∀ c ∈ l, pred c = false) :
    l.dropWhile pred = l := by
  cases l with
  | nil => rfl
  | cons c t => simp [List.dropWhile_cons, h c (.head t)]

theorem digit_not_ws (c : Char) (h : c.isDigit = true) : isJsWs c = false := by
  by_contra hw
  have hw' : isJsWs c = true := by
    cases hws : isJsWs c
    · exact absurd hws hw
    · rfl
  simp only [isJsWs, Bool.or_eq_true, decide_eq_true_eq] at hw'
  rcases hw' with ((((h1 | h1) | h1) | h1) | h1) | h1 <;> subst h1 <;>
    simp [Char.isDigit] at h

theorem trimChars_sandwich (w1 d w2 : List Char)
    (h1 : ∀ c ∈ w1, isJsWs c = true) (h2 : ∀ c ∈ w2, isJsWs c = true)
    (hd : ∀ c ∈ d, c.isDigit = true) (hne : d ≠ []) :
    trimChars (w1 ++ d ++ w2) = d := by
  have hdws : ∀ c ∈ d, isJsWs c = false := fun c hc => digit_not_ws c (hd c hc)
  have step1 : (w1 ++ d ++ w2).dropWhile isJsWs = d ++ w2 := by
    rw [List.append_assoc, dropWhile_append_of_all w1 (d ++ w2) isJsWs h1]
    cases d with
    | nil => exact absurd rfl hne
    | cons c t =>
      simp [List.dropWhile_cons, hdws c (.head t)]
  have step2 : (d ++ w2).reverse.dropWhile isJsWs = d.reverse := by
    rw [List.reverse_append, dropWhile_append_of_all w2.reverse d.reverse isJsWs
      (fun c hc => h2 c (List.mem_reverse.mp hc))]
    exact dropWhile_of_all_false d.reverse isJsWs
      (fun c hc => hdws c (List.mem_reverse.mp hc))
  rw [trimChars, step1, step2, List.reverse_reverse]

theorem sixDigits_all_digits (p : String) (hp : isSixDigits p = true) :
    (∀ c ∈ p.data, c.isDigit = true) ∧ p.data ≠ [] := by
  simp only [isSixDigits, Bool.and_eq_true, decide_eq_true_eq,
    List.all_eq_true] at hp
  refine ⟨hp.2, ?_⟩
  intro hnil
  rw [hnil] at hp
  simp at hp

theorem jsTrim_sixDigits (p : String) (hp : isSixDigits p = true) :
    jsTrim p = p := by
  obtain ⟨hd, hne⟩ := sixDigits_all_digits p hp
  apply String.ext
  show trimChars p.data = p.data
  have := trimChars_sandwich [] p.data [] (by simp) (by simp) hd hne
  simpa using this

theorem jsTrim_wrapped (w1 p w2 : String)
    (h1 : ∀ c ∈ w1.data, isJsWs c = true) (h2 : ∀ c ∈ w2.data, isJsWs c = true)
    (hp : isSixDigits p = true) :
    jsTrim (w1 ++ p ++ w2) = p := by
  obtain ⟨hd, hne⟩ := sixDigits_all_digits p hp
  apply String.ext
  show trimChars (w1 ++ p ++ w2).data = p.data
  rw [String.data_append, String.data_append]
  exact trimChars_sandwich w1.data p.data w2.data h1 h2 hd hne

/-! ## `toIntOrNull` and row-classification lemmas -/

theorem optNonneg_toIntOrNull (v : Option String) :
    optNonneg (toIntOrNull v) = true := by
  rcases v with _ | s0
  · rfl
  · simp only [toIntOrNull]
    split
    · rfl
    · split
      · rfl
      · rcases hjs : jsNumberInt (jsTrim s0) with _ | n
        · simp [hjs, optNonneg]
        · simp only [hjs]
          split
          · rfl
          · simp only [optNonneg, decide_eq_true_eq]
            omega

theorem classifyRow_pincodeBad (headers cols : List String) (idx : Nat)
    (h : isSixDigits (rowPincode headers cols) = false) :
    classifyRow headers idx cols =
      .inl ⟨idx + 2, "Invalid pincode (must be 6 digits).",
        rowPincode headers cols⟩ := by
  simp [classifyRow, h]

theorem pincodeOk_of_not_isLeft (headers cols : List String) (idx : Nat)
    (h : (classifyRow headers idx cols).isLeft = false) :
    isSixDigits (rowPincode headers cols) = true := by
  cases hp : isSixDigits (rowPincode headers cols)
  · rw [classifyRow_pincodeBad headers cols idx hp] at h
    simp at h
  · rfl

theorem classifyRow_inr_wf (headers cols : List String) (idx : Nat)
    (a : UpsertArgs) (h : classifyRow headers idx cols = .inr a) :
    argsWF a = true := by
  simp only [classifyRow] at h
  split at h
  · exact absurd h (by simp)
  · rename_i hpc
    split at h
    · exact absurd h (by simp)
    · split at h
      · exact absurd h (by simp)
      · split at h
        · exact absurd h (by simp)
        · cases h
          simp only [argsWF, Bool.and_eq_true]
          refine ⟨⟨⟨?_, ?_⟩, ?_⟩, ?_⟩
          · simpa using hpc
          · exact optNonneg_toIntOrNull _
          · exact optNonneg_toIntOrNull _
          · exact optNonneg_toIntOrNull _

/-! ## Upsert lemmas -/

theorem keyMatch_mkRule (shop : String) (a : UpsertArgs) :
    keyMatch shop a.pincode (mkRule shop a) = true := by
  simp [keyMatch, mkRule]

theorem keyMatch_updated (shop pc : String) (a : UpsertArgs) (r : Rule) :
    keyMatch shop pc
      { r with deliverable := a.deliverable, etaMinDays := a.etaMinDays,
               etaMaxDays := a.etaMaxDays, codAvailable := a.codAvailable,
               shippingFee := a.shippingFee } = keyMatch shop pc r := by
  simp [keyMatch]

theorem upsert_filter_key (db : List Rule) (shop : String) (a : UpsertArgs)
    (hlen : (db.filter (keyMatch shop a.pincode)).length ≤ 1) :
    (upsert db shop a).filter (keyMatch shop a.pincode) = [mkRule shop a] := by
  by_cases hany : db.any (keyMatch shop a.pincode) = true
  · obtain ⟨r0, hr0mem, hr0⟩ := List.any_eq_true.mp hany
    have hmem : r0 ∈ db.filter (keyMatch shop a.pincode) :=
      List.mem_filter.mpr ⟨hr0mem, hr0⟩
    have hlen1 : (db.filter (keyMatch shop a.pincode)).length = 1 := by
      have hpos : 0 < (db.filter (keyMatch shop a.pincode)).length :=
        List.length_pos.mpr (List.ne_nil_of_mem hmem)
      omega
    obtain ⟨r1, hr1⟩ := List.length_eq_one.mp hlen1
    have hr1p : keyMatch shop a.pincode r1 = true := by
      have : r1 ∈ db.filter (keyMatch shop a.pincode) := by
        rw [hr1]; exact .head _
      exact (List.mem_filter.mp this).2
    simp only [upsert]
    rw [if_pos hany]
    rw [filter_map_pres db _ (keyMatch shop a.pincode) ?_]
    · rw [hr1]
      simp only [List.map_cons, List.map_nil, hr1p, if_true]
      obtain ⟨hs, hp⟩ : r1.shop = shop ∧ r1.pincode = a.pincode := by
        simpa [keyMatch] using hr1p
      cases r1
      simp_all [mkRule]
    · intro r
      by_cases hk : keyMatch shop a.pincode r = true
      · rw [if_pos hk, keyMatch_updated, hk]
      · rw [if_neg hk]
  · have hanyf : db.any (keyMatch shop a.pincode) = false := by
      cases h : db.any (keyMatch shop a.pincode)
      · rfl
      · exact absurd h hany
    have hnil : db.filter (keyMatch shop a.pincode) = [] := by
      rw [List.filter_eq_nil_iff]
      exact fun r hr => List.any_eq_false.mp hanyf r hr
    simp only [upsert]
    rw [if_neg hany, List.filter_append, hnil]
    simp [keyMatch_mkRule]

/-! ## Invariant-preservation lemmas -/

theorem ruleWF_mkRule (shop : String) (a : UpsertArgs) (h : argsWF a = true) :
    ruleWF (mkRule shop a) = true := by
  simpa [ruleWF, mkRule, argsWF] using h

theorem upsert_pres_wf (db : List Rule) (shop : String) (a : UpsertArgs)
    (hdb : ∀ r ∈ db, ruleWF r = true) (ha : argsWF a = true) :
    ∀ r ∈ upsert db shop a, ruleWF r = true := by
  intro r hr
  simp only [upsert] at hr
  split at hr
  · obtain ⟨r0, hr0mem, hr0eq⟩ := List.mem_map.mp hr
    by_cases hk : keyMatch shop a.pincode r0 = true
    · rw [if_pos hk] at hr0eq
      subst hr0eq
      have h0 := hdb r0 hr0mem
      cases r0
      simp only [ruleWF, argsWF, Bool.and_eq_true] at h0 ha ⊢
      exact ⟨⟨⟨h0.1.1.1, ha.1.1.2⟩, ha.1.2⟩, ha.2⟩
    · rw [if_neg hk] at hr0eq
      subst hr0eq
      exact hdb r0 hr0mem
  · rcases List.mem_append.mp hr with hmem | hmem
    · exact hdb r hmem
    · rw [List.mem_singleton.mp hmem]
      exact ruleWF_mkRule shop a ha

theorem foldl_upsert_pres_wf (shop : String) (args : List UpsertArgs)
    (hargs : ∀ a ∈ args, argsWF a = true) :
    ∀ db : List Rule, (∀ r ∈ db, ruleWF r = true) →
      ∀ r ∈ args.foldl (fun d a => upsert d shop a) db, ruleWF r = true := by
  induction args with
  | nil => intro db hdb; simpa using hdb
  | cons a t ih =>
    intro db hdb
    simp only [List.foldl_cons]
    exact ih (fun x hx => hargs x (.tail a hx)) (upsert db shop a)
      (upsert_pres_wf db shop a hdb (hargs a (.head t)))

theorem classifiedRows_rightOf_wf (csv : String) :
    ∀ a ∈ (classifiedRows csv).filterMap rightOf, argsWF a = true := by
  intro a ha
  obtain ⟨s, hs, hsome⟩ := List.mem_filterMap.mp ha
  simp only [classifiedRows] at hs
  obtain ⟨ic, _, hic⟩ := List.mem_map.mp hs
  cases s with
  | inl e => simp [rightOf] at hsome
  | inr b =>
    simp only [rightOf, Option.some.injEq] at hsome
    subst hsome
    exact classifyRow_inr_wf _ _ _ b hic

/-! ## Branch equations for the bulk handler -/

theorem bulkUpload_ok_eq (csv shop : String) (db : List Rule)
    (h : headerHasPincode (parseCsv csv).headers = true) :
    bulkUpload csv shop db = ⟨.ok
      ((parsedPincodes csv).filter
        (fun pc => !((existingPincodes csv shop db).contains pc))).length
      ((parsedPincodes csv).filter
        (fun pc => (existingPincodes csv shop db).contains pc)).length
      ((classifiedRows csv).filterMap leftOf).length
      (((classifiedRows csv).filterMap leftOf).take 50),
      ((classifiedRows csv).filterMap rightOf).foldl
        (fun d a => upsert d shop a) db⟩ := by
  simp [bulkUpload, h]

theorem bulkUpload_err_eq (csv shop : String) (db : List Rule)
    (h : headerHasPincode (parseCsv csv).headers = false) :
    bulkUpload csv shop db =
      ⟨.err "CSV must include a \"pincode\" column.", db⟩ := by
  simp [bulkUpload, h]

theorem bulkUpload_pres_wf (csv shop : String) (db : List Rule)
    (hdb : ∀ r ∈ db, ruleWF r = true) :
    ∀ r ∈ (bulkUpload csv shop db).db, ruleWF r = true := by
  cases h : headerHasPincode (parseCsv csv).headers
  · rw [bulkUpload_err_eq csv shop db h]
    exact hdb
  · rw [bulkUpload_ok_eq csv shop db h]
    exact foldl_upsert_pres_wf shop _ (classifiedRows_rightOf_wf csv) db hdb

theorem createAction_pres_wf (db : List Rule) (shop : String)
    (pcF dF cF e1F e2F sF : Option String)
    (hdb : ∀ r ∈ db, ruleWF r = true) :
    ∀ r ∈ (createAction db shop pcF dF cF e1F e2F sF).db, ruleWF r = true := by
  simp only [createAction]
  split
  · simpa using hdb
  · rename_i hpc
    split
    · simpa using hdb
    · split
      · simpa using hdb
      · split
        · simpa using hdb
        · refine upsert_pres_wf db shop _ hdb ?_
          simp only [argsWF, Bool.and_eq_true]
          refine ⟨⟨⟨?_, ?_⟩, ?_⟩, ?_⟩
          · simpa using hpc
          · exact optNonneg_toIntOrNull _
          · exact optNonneg_toIntOrNull _
          · exact optNonneg_toIntOrNull _

/-! ## Claim C1 — lookup parameter handling -/

/-- Claim C1, counterexample: with the `shop` query parameter present but
empty (`?shop=&pincode=abc`) and a malformed pincode, the loader answers
HTTP 400 with an error body, not the HTTP 200 success envelope the claim
requires for every request whose `shop` parameter is present. -/
theorem C1_counterexample :
    (some "" : Option String).isSome = true ∧
    isSixDigits (jsTrim "abc") = false ∧
    lookupLoader (some "") (some "abc") [] =
      ⟨400, .errorBody "Missing shop"⟩ ∧
    (lookupLoader (some "") (some "abc") []).status ≠ 200 := by
  refine ⟨rfl, by decide, by decide, by decide⟩

/-- Claim C1, amended: an absent shop parameter — and likewise a present but
empty one, which the code treats identically — yields HTTP 400 with
`{ok:false, error}`; whenever `shop` is present and non-empty and the
trimmed pincode does not match six digits, the response is HTTP 200 with
the success envelope `{ok:true, deliverable:false}` and the prompt message,
never HTTP 400. -/
theorem C1_malformed_pincode_not_400 (p : Option String) (q s : String)
    (db db' : List Rule) (hs : s ≠ "")
    (hq : isSixDigits (jsTrim q) = false) :
    lookupLoader none p db = ⟨400, .errorBody "Missing shop"⟩ ∧
    lookupLoader (some "") p db = ⟨400, .errorBody "Missing shop"⟩ ∧
    lookupLoader (some s) (some q) db' =
      ⟨200, .negative "Enter 6-digit pincode."⟩ := by
  refine ⟨rfl, rfl, ?_⟩
  have hts : jsTruthy (some s) = true := by simp [jsTruthy, hs]
  simp [lookupLoader, hts, hq]

/-- Witness for `C1_malformed_pincode_not_400` at concrete inputs. -/
theorem C1_witness :
    lookupLoader none (some "110001") [] = ⟨400, .errorBody "Missing shop"⟩ ∧
    lookupLoader (some "") (some "110001") [] =
      ⟨400, .errorBody "Missing shop"⟩ ∧
    lookupLoader (some "shop.test") (some "12a") [] =
      ⟨200, .negative "Enter 6-digit pincode."⟩ :=
  C1_malformed_pincode_not_400 (some "110001") "12a" "shop.test" [] []
    (by decide) (by decide)

/-! ## Claim C3 — rule lookup semantics -/

/-- Claim C3, counterexample: with `shop` present but empty and a
well-formed six-digit pincode, the loader answers HTTP 400, not one of the
two HTTP 200 shapes the claim describes for every lookup with `shop`
present. -/
theorem C3_counterexample :
    (some "" : Option String).isSome = true ∧
    isSixDigits "110001" = true ∧
    lookupLoader (some "") (some "110001") [] =
      ⟨400, .errorBody "Missing shop"⟩ ∧
    (lookupLoader (some "") (some "110001") []).status ≠ 200 := by
  refine ⟨rfl, by decide, by decide, by decide⟩

/-- Claim C3, amended: for every lookup with a present, non-empty `shop`
and a six-digit pincode: no rule or a non-deliverable rule gives HTTP 200
with `{ok:true, deliverable:false}` and the "Not deliverable" message; a
deliverable rule gives HTTP 200 with `{ok:true, deliverable:true}` carrying
the rule's `etaMinDays`, `etaMaxDays`, `codAvailable`, `shippingFee` and
the availability message. -/
theorem C3_rule_lookup (s p : String) (db : List Rule) (hs : s ≠ "")
    (hp : isSixDigits p = true) :
    (findUnique db s p = none →
      lookupLoader (some s) (some p) db =
        ⟨200, .negative "Not deliverable for this pincode."⟩) ∧
    (∀ r : Rule, findUnique db s p = some r → r.deliverable = false →
      lookupLoader (some s) (some p) db =
        ⟨200, .negative "Not deliverable for this pincode."⟩) ∧
    (∀ r : Rule, findUnique db s p = some r → r.deliverable = true →
      lookupLoader (some s) (some p) db =
        ⟨200, .positive r.etaMinDays r.etaMaxDays r.codAvailable
          r.shippingFee "Delivery available."⟩) := by
  have htrim : jsTrim p = p := jsTrim_sixDigits p hp
  have hts : jsTruthy (some s) = true := by simp [jsTruthy, hs]
  refine ⟨fun hf => ?_, fun r hf hd => ?_, fun r hf hd => ?_⟩
  · simp [lookupLoader, hts, htrim, hp, hf]
  · simp [lookupLoader, hts, htrim, hp, hf, hd]
  · simp [lookupLoader, hts, htrim, hp, hf, hd]

/-- Witness for `C3_rule_lookup`: a deliverable rule is reported with its
stored fields. -/
theorem C3_witness :
    lookupLoader (some "shop.test") (some "110001")
      [⟨"shop.test", "110001", true, some 2, some 4, true, some 49⟩] =
      ⟨200, .positive (some 2) (some 4) true (some 49) "Delivery available."⟩ :=
  (C3_rule_lookup "shop.test" "110001"
    [⟨"shop.test", "110001", true, some 2, some 4, true, some 49⟩]
    (by decide) (by decide)).2.2
    ⟨"shop.test", "110001", true, some 2, some 4, true, some 49⟩
    (by decide) rfl

/-! ## Claim C10 — pincode trimming and the absent parameter -/

/-- Claim C10: with a present non-empty shop, a pincode parameter that is a
six-digit code surrounded by whitespace is looked up exactly like the bare
code, and an absent pincode parameter behaves as the empty string, giving
the HTTP 200 `deliverable:false` prompt response rather than an error. -/
theorem C10_pincode_trimming (s w1 w2 p : String) (db : List Rule)
    (hs : s ≠ "")
    (h1 : ∀ c ∈ w1.data, isJsWs c = true)
    (h2 : ∀ c ∈ w2.data, isJsWs c = true)
    (hp : isSixDigits p = true) :
    lookupLoader (some s) (some (w1 ++ p ++ w2)) db =
      lookupLoader (some s) (some p) db ∧
    lookupLoader (some s) none db =
      ⟨200, .negative "Enter 6-digit pincode."⟩ := by
  have hts : jsTruthy (some s) = true := by simp [jsTruthy, hs]
  constructor
  · have hw := jsTrim_wrapped w1 p w2 h1 h2 hp
    simp only [lookupLoader, Option.getD_some]
    rw [hw, jsTrim_sixDigits p hp]
  · have he : isSixDigits (jsTrim "") = false := by decide
    simp [lookupLoader, hts, he]

/-- Witness for `C10_pincode_trimming` at concrete inputs. -/
theorem C10_witness :
    lookupLoader (some "shop.test") (some (" " ++ "110001" ++ "  ")) [] =
      lookupLoader (some "shop.test") (some "110001") [] ∧
    lookupLoader (some "shop.test") none [] =
      ⟨200, .negative "Enter 6-digit pincode."⟩ :=
  C10_pincode_trimming "shop.test" " " "  " "110001" []
    (by decide) (by decide) (by decide) (by decide)

/-! ## Claim C5 — upsert idempotence -/

/-- Claim C5: upserting the same `(shop, pincode)` with the same field
values twice — starting from any table satisfying the unique-index
invariant — leaves exactly one row for that key, holding exactly those
values. -/
theorem C5_upsert_idempotent (db : List Rule) (shop : String)
    (a : UpsertArgs) (hpc : isSixDigits a.pincode = true)
    (huniq : (db.filter (keyMatch shop a.pincode)).length ≤ 1) :
    (upsert (upsert db shop a) shop a).filter (keyMatch shop a.pincode) =
      [mkRule shop a] := by
  have h1 := upsert_filter_key db shop a huniq
  exact upsert_filter_key _ shop a (by rw [h1]; simp)

/-- Witness for `C5_upsert_idempotent` at concrete inputs. -/
theorem C5_witness :
    (upsert (upsert [] "shop.test"
        ⟨"110001", true, some 2, some 4, true, some 49⟩) "shop.test"
        ⟨"110001", true, some 2, some 4, true, some 49⟩).filter
      (keyMatch "shop.test"
        (⟨"110001", true, some 2, some 4, true, some 49⟩ : UpsertArgs).pincode) =
      [mkRule "shop.test" ⟨"110001", true, some 2, some 4, true, some 49⟩] :=
  C5_upsert_idempotent [] "shop.test"
    ⟨"110001", true, some 2, some 4, true, some 49⟩ (by decide) (by decide)

/-! ## Claim C2 — row accounting of the bulk upload -/

/-- Claim C2, counterexample: the CSV `pincode,etaMinDays` with the single
data row `110001,xx` reports `invalidCount = 1` and `inserted + updated = 1`
although it has only one data row — the row passes the pincode-format check
(so it is counted in `inserted`) yet fails numeric validation (so it is
also counted invalid). -/
theorem C2_counterexample :
    (bulkUpload "pincode,etaMinDays\n110001,xx" "shop.test" []).resp.invalidCountOf
        + ((bulkUpload "pincode,etaMinDays\n110001,xx" "shop.test" []).resp.insertedOf
          + (bulkUpload "pincode,etaMinDays\n110001,xx" "shop.test" []).resp.updatedOf)
      ≠ dataRowCount "pincode,etaMinDays\n110001,xx" := by decide

/-- Claim C2, amended: for every accepted CSV, the reported invalid count
plus `inserted + updated` equals the total number of data rows plus the
number of rows that pass the pincode-format check but are nonetheless
recorded invalid (for a numeric-field failure); the two sides agree exactly
when no such overlapping row exists. -/
theorem C2_row_accounting (csv shop : String) (db : List Rule)
    (h : headerHasPincode (parseCsv csv).headers = true) :
    (bulkUpload csv shop db).resp.invalidCountOf
        + ((bulkUpload csv shop db).resp.insertedOf
          + (bulkUpload csv shop db).resp.updatedOf)
      = dataRowCount csv + pincodeValidOverlap csv := by
  rw [bulkUpload_ok_eq csv shop db h]
  simp only [BulkResp.invalidCountOf, BulkResp.insertedOf, BulkResp.updatedOf]
  have hacc : (((parseCsv csv).rows.enum).filter
        (fun ic => (classifyRow (parseCsv csv).headers ic.1 ic.2).isLeft)).length
      + (((parseCsv csv).rows.enum).filter
        (fun ic => isSixDigits (rowPincode (parseCsv csv).headers ic.2))).length
      = ((parseCsv csv).rows.enum).length
        + (((parseCsv csv).rows.enum).filter
          (fun ic => (classifyRow (parseCsv csv).headers ic.1 ic.2).isLeft
            && isSixDigits (rowPincode (parseCsv csv).headers ic.2))).length :=
    length_filter_overlap _ _ _ (fun ic _ hlf => pincodeOk_of_not_isLeft _ _ _ hlf)
  have hlen : ((parseCsv csv).rows.enum).length = (parseCsv csv).rows.length :=
    List.enum_length
  have hinv : ((classifiedRows csv).filterMap leftOf).length =
      (((parseCsv csv).rows.enum).filter
        (fun ic => (classifyRow (parseCsv csv).headers ic.1 ic.2).isLeft)).length := by
    rw [length_filterMap_leftOf]
    simp only [classifiedRows]
    rw [length_filter_map]
  have hpp : (parsedPincodes csv).length =
      (((parseCsv csv).rows.enum).filter
        (fun ic => isSixDigits (rowPincode (parseCsv csv).headers ic.2))).length := by
    simp only [parsedPincodes]
    rw [length_filter_map, List.enum]
    exact (length_filter_enumFrom (parseCsv csv).rows 0
      (fun x => isSixDigits (rowPincode (parseCsv csv).headers x))).symm
  have hiu : ((parsedPincodes csv).filter
        (fun pc => !((existingPincodes csv shop db).contains pc))).length
      + ((parsedPincodes csv).filter
        (fun pc => (existingPincodes csv shop db).contains pc)).length
      = (parsedPincodes csv).length := by
    rw [Nat.add_comm]
    exact length_filter_partition (parsedPincodes csv)
      (fun pc => (existingPincodes csv shop db).contains pc)
  simp only [dataRowCount, pincodeValidOverlap]
  omega

/-- Witness for `C2_row_accounting` at a concrete CSV where the overlap is
non-zero. -/
theorem C2_witness :
    (bulkUpload "pincode,etaMinDays\n110001,xx" "shop.test" []).resp.invalidCountOf
        + ((bulkUpload "pincode,etaMinDays\n110001,xx" "shop.test" []).resp.insertedOf
          + (bulkUpload "pincode,etaMinDays\n110001,xx" "shop.test" []).resp.updatedOf)
      = dataRowCount "pincode,etaMinDays\n110001,xx"
        + pincodeValidOverlap "pincode,etaMinDays\n110001,xx" :=
  C2_row_accounting "pincode,etaMinDays\n110001,xx" "shop.test" [] (by decide)

/-! ## Claim C9 — exact invalid count, truncated detail list -/

/-- Claim C9: for every accepted CSV the returned `invalidCount` is the
exact number of rows the loop classifies invalid, while the returned
`invalid` detail list has length `min invalidCount 50`. -/
theorem C9_invalid_cap (csv shop : String) (db : List Rule)
    (h : headerHasPincode (parseCsv csv).headers = true) :
    ((bulkUpload csv shop db).resp.invalidListOf).length =
      min ((bulkUpload csv shop db).resp.invalidCountOf) 50 ∧
    (bulkUpload csv shop db).resp.invalidCountOf = invalidRowCount csv := by
  rw [bulkUpload_ok_eq csv shop db h]
  simp only [BulkResp.invalidListOf, BulkResp.invalidCountOf]
  constructor
  · rw [List.length_take, Nat.min_comm]
  · rw [invalidRowCount, length_filterMap_leftOf]

/-- Witness for `C9_invalid_cap` at a concrete CSV. -/
theorem C9_witness :
    ((bulkUpload "pincode\n110001\nabc" "shop.test" []).resp.invalidListOf).length =
      min ((bulkUpload "pincode\n110001\nabc" "shop.test" []).resp.invalidCountOf) 50 ∧
    (bulkUpload "pincode\n110001\nabc" "shop.test" []).resp.invalidCountOf =
      invalidRowCount "pincode\n110001\nabc" :=
  C9_invalid_cap "pincode\n110001\nabc" "shop.test" [] (by decide)

/-! ## Claim C6 — mandatory pincode column -/

/-- Claim C6, counterexample: a CSV without a pincode column fails with the
error string `CSV must include a "pincode" column.` (quoted column name,
trailing period), which is not the string the claim quotes. -/
theorem C6_counterexample :
    bulkUpload "foo,bar\n1,2" "shop.test" [] =
      ⟨.err "CSV must include a \"pincode\" column.", []⟩ ∧
    "CSV must include a \"pincode\" column." ≠
      "CSV must include a pincode column" := by
  refine ⟨by decide, by decide⟩

/-- Claim C6, amended: a header row lacking a `pincode` column
(case-insensitively) fails the whole request with the error
`CSV must include a "pincode" column.` before any row is processed and
leaves the table untouched; when the column is present the request is never
failed as a whole, whatever the row-level problems. -/
theorem C6_header_check (csv shop : String) (db : List Rule) :
    (headerHasPincode (parseCsv csv).headers = false →
      bulkUpload csv shop db =
        ⟨.err "CSV must include a \"pincode\" column.", db⟩) ∧
    (headerHasPincode (parseCsv csv).headers = true →
      (bulkUpload csv shop db).resp.isErr = false) :=
  ⟨fun h => bulkUpload_err_eq csv shop db h,
   fun h => by rw [bulkUpload_ok_eq csv shop db h]; rfl⟩

/-- Witness for `C6_header_check`: both branches at concrete CSVs. -/
theorem C6_witness :
    bulkUpload "foo,bar\n1,2" "shop.test" [] =
      ⟨.err "CSV must include a \"pincode\" column.", []⟩ ∧
    (bulkUpload "pincode\nnot-a-pin" "shop.test" []).resp.isErr = false :=
  ⟨(C6_header_check "foo,bar\n1,2" "shop.test" []).1 (by decide),
   (C6_header_check "pincode\nnot-a-pin" "shop.test" []).2 (by decide)⟩

/-! ## Claim C7 — boolean coercion of CSV fields -/

/-- Claim C7, counterexample: a data row whose `deliverable` cell holds the
unrecognized non-empty value `maybe` is stored with `deliverable = false`,
not the claimed default of true for unrecognized values. -/
theorem C7_counterexample :
    bulkUpload "pincode,deliverable\n110001,maybe" "shop.test" [] =
      ⟨.ok 1 0 0 [],
        [⟨"shop.test", "110001", false, none, none, false, none⟩]⟩ ∧
    (∀ r ∈ (bulkUpload "pincode,deliverable\n110001,maybe" "shop.test" []).db,
      r.deliverable = false) := by
  refine ⟨by decide, by decide⟩

/-- Claim C7, amended: the CSV boolean coercion maps case-insensitive
`true`, `1`, `yes` (after trimming) to true and every other non-empty value
to false; an empty or missing cell takes the per-field fallback — true for
`deliverable`, false for `codAvailable`. An unrecognized non-empty
`deliverable` value therefore coerces to false, not to the default. -/
theorem C7_bool_coercion (v w : String) :
    toBool none true = true ∧ toBool none false = false ∧
    (toBool (some v) true =
      if v = "" then true
      else (jsToLower (jsTrim v) = "true" || jsToLower (jsTrim v) = "1" ||
        jsToLower (jsTrim v) = "yes")) ∧
    (toBool (some w) false =
      if w = "" then false
      else (jsToLower (jsTrim w) = "true" || jsToLower (jsTrim w) = "1" ||
        jsToLower (jsTrim w) = "yes")) ∧
    classifyRow ["pincode", "deliverable", "codAvailable"] 0
        ["110001", v, w] =
      .inr ⟨"110001", toBool (some v) true, none, none,
        toBool (some w) false, none⟩ ∧
    classifyRow ["pincode"] 0 ["110001"] =
      .inr ⟨"110001", true, none, none, false, none⟩ :=
  ⟨rfl, rfl, rfl, rfl, rfl, rfl⟩

/-! ## Claim C8 — data-model invariants of stored rows -/

/-- Claim C8: starting from any table whose rows satisfy the data-model
invariant (six-digit pincode kept as a string, numeric fields absent or
non-negative), every row left behind by the single-rule create handler and
by the CSV bulk upload still satisfies it — rows failing validation never
reach the store. -/
theorem C8_store_invariants (db : List Rule) (shop shop2 csv : String)
    (pcF dF cF e1F e2F sF : Option String)
    (hdb : ∀ r ∈ db, ruleWF r = true) :
    (∀ r ∈ (createAction db shop pcF dF cF e1F e2F sF).db, ruleWF r = true) ∧
    (∀ r ∈ (bulkUpload csv shop2 db).db, ruleWF r = true) :=
  ⟨createAction_pres_wf db shop pcF dF cF e1F e2F sF hdb,
   bulkUpload_pres_wf csv shop2 db hdb⟩

/-- Witness for `C8_store_invariants` at concrete inputs. -/
theorem C8_witness :
    (∀ r ∈ (createAction [] "shop.test" (some "007001") (some "false") none
      (some "2") none none).db, ruleWF r = true) ∧
    (∀ r ∈ (bulkUpload "pincode,shippingFee\n110001,49\nbad,1" "shop.test"
      []).db, ruleWF r = true) :=
  C8_store_invariants [] "shop.test" "shop.test"
    "pincode,shippingFee\n110001,49\nbad,1" (some "007001") (some "false")
    none (some "2") none none (by simp)

/-! ## Claim C4 — the documented bulk example -/

/-- The claim's example CSV: a six-column header and two data rows, the
second with a malformed pincode. -/
def sampleCsvC4 : String :=
  "pincode,deliverable,etaMinDays,etaMaxDays,codAvailable,shippingFee\n110001,true,2,4,true,49\nabc123,true,2,4,true,49"

/-- Claim C4, counterexample: the counts and the row number match the
claim, but the recorded reason is `Invalid pincode (must be 6 digits).`
with a trailing period — not the string the claim quotes. -/
theorem C4_counterexample :
    (bulkUpload sampleCsvC4 "shop.test" []).resp =
      .ok 1 0 1 [⟨3, "Invalid pincode (must be 6 digits).", "abc123"⟩] ∧
    ((bulkUpload sampleCsvC4 "shop.test" []).resp.invalidListOf).map
        InvalidEntry.reason ≠ ["Invalid pincode (must be 6 digits)"] := by
  refine ⟨by decide, by decide⟩

/-- Claim C4, amended: uploading the example CSV to a tenant with no
pre-existing rule for `110001` yields `inserted = 1`, `updated = 0`,
`invalidCount = 1`, and the single invalid entry references row 3 with
reason `Invalid pincode (must be 6 digits).` (trailing period as emitted by
the code). -/
theorem C4_bulk_example (shop : String) (db : List Rule)
    (hno : ∀ r ∈ db, ¬(r.shop = shop ∧ r.pincode = "110001")) :
    (bulkUpload sampleCsvC4 shop db).resp =
      .ok 1 0 1 [⟨3, "Invalid pincode (must be 6 digits).", "abc123"⟩] := by
  have h : headerHasPincode (parseCsv sampleCsvC4).headers = true := by decide
  have hpp : parsedPincodes sampleCsvC4 = ["110001"] := by decide
  have hexnil : existingPincodes sampleCsvC4 shop db = [] := by
    simp only [existingPincodes, hpp]
    have hfil : (db.filter fun r =>
        r.shop = shop && (["110001"] : List String).contains r.pincode) = [] := by
      rw [List.filter_eq_nil_iff]
      intro r hr hcond
      simp only [Bool.and_eq_true, decide_eq_true_eq, List.contains,
        List.elem_iff, List.mem_singleton] at hcond
      exact hno r hr hcond
    rw [hfil, List.map_nil]
  rw [bulkUpload_ok_eq _ shop db h]
  simp only [hpp, hexnil]
  rfl

/-- Witness for `C4_bulk_example` on an empty table. -/
theorem C4_witness :
    (bulkUpload sampleCsvC4 "shop.test" []).resp =
      .ok 1 0 1 [⟨3, "Invalid pincode (must be 6 digits).", "abc123"⟩] :=
  C4_bulk_example "shop.test" [] (by simp)

end Pincode
